import Mathlib

/-!
Shallow embedding of the desktop-tool PDF export pipeline
(`src/desktop-tool/src/pdf_maker.py`, class `PdfExporter`) and proofs of the
specification claims about it.

Modelling conventions:
* Python ints are `Nat`/`Int`; print-unit coordinates (inches / millimetres,
  written as Python floats in the source, e.g. `2.73`, `0.5`) are exact `ℚ`.
* The FPDF document object is modelled by the list of pages/placements it
  accumulates; `pdf.output(...)` is modelled by recording a `SavedDoc`.
* `self.pdf` starts as `None` (attrs default), so it is an `Option`;
  calling a method on `None` raises `AttributeError`, modelled by
  `PyError.attributeError`.  `slot % 0` raises `ZeroDivisionError`.
* Shelling out to ImageMagick is modelled by recording the invoked transform
  (`Transform`); the text scraped from `identify -verbose` is abstracted to a
  list of parsed lines (`IdentifyLine`), and the filesystem existence check to
  a predicate `fs : String → Bool`.
-/

namespace PdfMaker

/-- One card entry of the order: the slots it covers and its image file path
(mirrors `card.slots` / `card.file_path` used by `download_and_collect_images`). -/
structure Card where
  slots : List Nat
  file_path : String
deriving DecidableEq, Repr

/-- An image placed on a page with explicit position and size in print units. -/
structure PlacedImage where
  image : String
  x : ℚ
  y : ℚ
  w : ℚ
  h : ℚ
deriving DecidableEq, Repr

/-- Default card width, `card_width_in_inches: float = attr.ib(default=2.73)`. -/
def card_width_in_inches : ℚ := 273 / 100

/-- Default card height, `card_height_in_inches: float = attr.ib(default=3.71)`. -/
def card_height_in_inches : ℚ := 371 / 100

/-- Python errors that the modelled code can raise. -/
inductive PyError
  | attributeError
  | zeroDivisionError
  | keyError
deriving DecidableEq, Repr

/-- A document written by `save_file`: the file number used in its name
(`f"{self.save_path}{self.file_num}.pdf"`) and its pages. -/
structure SavedDoc where
  fileNum : Nat
  pages : List PlacedImage
deriving DecidableEq, Repr

/-- `add_image`: `self.pdf.add_page()` then
`self.pdf.image(image_path, x=0, y=0, w=card_width, h=card_height)` —
one new full-bleed page per call.  On `self.pdf = None` this raises
`AttributeError`. -/
def mkCardPage (path : String) : PlacedImage :=
  ⟨path, 0, 0, card_width_in_inches, card_height_in_inches⟩

/-- State threaded through `export`: the current document (`self.pdf`,
`None` before `generate_pdf` first runs), `self.file_num`, and the documents
saved so far. -/
structure SeqState where
  pdf : Option (List PlacedImage)
  fileNum : Nat
  saved : List SavedDoc
deriving DecidableEq, Repr

/-- Embeds `add_image` acting on the sequential-export state. -/
def add_image (st : SeqState) (path : String) : Except PyError SeqState :=
  match st.pdf with
  | none => Except.error PyError.attributeError
  | some pgs => Except.ok { st with pdf := some (pgs ++ [mkCardPage path]) }

/-- One iteration of the `export` loop body for entry `(slot, back, front)`:
`if slot == 0: generate_pdf()` / `elif slot % k == 0: save_file();
file_num += 1; generate_pdf()`, then `add_image(back); add_image(front)`. -/
def seqStep (k : Nat) (st : SeqState) (e : Nat × String × String) :
    Except PyError SeqState :=
  let slot := e.1
  let stepSt : Except PyError SeqState :=
    if slot = 0 then
      Except.ok { st with pdf := some [] }
    else if k = 0 then
      Except.error PyError.zeroDivisionError
    else if slot % k = 0 then
      match st.pdf with
      | none => Except.error PyError.attributeError
      | some pgs =>
          Except.ok ⟨some [], st.fileNum + 1, st.saved ++ [⟨st.fileNum, pgs⟩]⟩
    else
      Except.ok st
  match stepSt with
  | Except.error err => Except.error err
  | Except.ok st1 =>
      match add_image st1 e.2.1 with
      | Except.error err => Except.error err
      | Except.ok st2 => add_image st2 e.2.2

/-- The `for slot in sorted(self.paths_by_slot.keys())` loop of `export`. -/
def exportLoop (k : Nat) (st : SeqState) :
    List (Nat × String × String) → Except PyError SeqState
  | [] => Except.ok st
  | e :: rest =>
      match seqStep k st e with
      | Except.error err => Except.error err
      | Except.ok st1 => exportLoop k st1 rest

/-- Embeds `PdfExporter.export`: run the loop over the sorted slot entries
starting from `pdf = None`, `file_num = 1`, then `save_file()` once more for
the final (possibly partial) document.  Returns the saved documents. -/
def exportPdf (k : Nat) (entries : List (Nat × String × String)) :
    Except PyError (List SavedDoc) :=
  match exportLoop k ⟨none, 1, []⟩ entries with
  | Except.error err => Except.error err
  | Except.ok st =>
      match st.pdf with
      | none => Except.error PyError.attributeError
      | some pgs => Except.ok (st.saved ++ [⟨st.fileNum, pgs⟩])

/-! Grid-sheet mode (`export_a3`). -/

/-- `left = 20` margin of `export_a3`. -/
def a3_left : ℚ := 20

/-- `top = 15` margin of `export_a3`. -/
def a3_top : ℚ := 15

/-- `image_w = 63` of `export_a3`. -/
def a3_image_w : ℚ := 63

/-- `image_h = 88` of `export_a3`. -/
def a3_image_h : ℚ := 88

/-- `gap = 0.5` of `export_a3`. -/
def a3_gap : ℚ := 1 / 2

/-- `x = left + (i % 6) * image_w + (i % 6) * gap`. -/
def a3x (i : Nat) : ℚ :=
  a3_left + (i % 6 : Nat) * a3_image_w + (i % 6 : Nat) * a3_gap

/-- `y = top + int(i / 6 % 3) * image_h + int(i / 6 % 3) * gap`.
The Python expression truncates `float(i) / 6 % 3`; for every machine-integer
slot index this equals the integer `i / 6 % 3` (the float quotient `i / 6`
carries a relative error below `2⁻⁵²`, far smaller than the `1/6` distance from
any non-multiple to the next integer, and `%`/truncation are exact), so it is
embedded as `Nat` arithmetic. -/
def a3y (i : Nat) : ℚ :=
  a3_top + (i / 6 % 3 : Nat) * a3_image_h + (i / 6 % 3 : Nat) * a3_gap

/-- A front image placed on a grid sheet: 0-based page index and position. -/
structure A3Placement where
  page : Nat
  image : String
  x : ℚ
  y : ℚ
  w : ℚ
  h : ℚ
deriving DecidableEq, Repr

/-- Loop state of `export_a3`: the running counter `i`, the 0-based index of
the current sheet page (`add_a3_page` has run `page + 1` times), and the
placements made so far. -/
structure A3State where
  i : Nat
  page : Nat
  placements : List A3Placement
deriving DecidableEq, Repr

/-- One iteration of the `export_a3` loop for entry `(slot, back, front)`:
`if i > 0 and i % 18 == 0: add_a3_page()`, then place
`image_paths_tuple[1]` (the front) at `(x, y)` with size 63×88, and `i += 1`. -/
def a3Step (st : A3State) (e : Nat × String × String) : A3State :=
  let st1 := if 0 < st.i ∧ st.i % 18 = 0 then { st with page := st.page + 1 } else st
  ⟨st1.i + 1, st1.page,
    st1.placements ++ [⟨st1.page, e.2.2, a3x st1.i, a3y st1.i, a3_image_w, a3_image_h⟩]⟩

/-- The document produced by `export_a3`: total number of sheet pages added
and all image placements (each placement names its 0-based page). -/
structure A3Doc where
  pages : Nat
  placements : List A3Placement
deriving DecidableEq, Repr

/-- Embeds `PdfExporter.export_a3`: `generate_pdf_a3()`, `add_a3_page()`
(first sheet page), the placement loop over the sorted slot entries, then one
`save_file()`.  Never raises: the document always exists and is always saved. -/
def export_a3 (entries : List (Nat × String × String)) : A3Doc :=
  let st := List.foldl a3Step ⟨0, 0, []⟩ entries
  ⟨st.page + 1, st.placements⟩

/-! Resource resolution (`download_and_collect_images`). -/

/-- A Python dict as the sequence of `d[k] = v` writes; lookup returns the
value of the last write to the key. -/
def dictGet (l : List (Nat × String)) (k : Nat) : Option String :=
  (List.find? (fun p => p.1 = k) l.reverse).map (fun p => p.2)

/-- The write sequence of `backs_by_slots` / `fronts_by_slots`:
`for card in cards: for slot in card.slots: d[slot] = card.file_path`. -/
def slotWrites (cards : List Card) : List (Nat × String) :=
  cards.flatMap (fun c => c.slots.map (fun s => (s, c.file_path)))

/-- Python dict key iteration order: first-write order with duplicates
dropped (`for slot in fronts_by_slots.keys()`). -/
def pyKeysAux (seen : List Nat) : List Nat → List Nat
  | [] => []
  | k :: rest =>
      if k ∈ seen then pyKeysAux seen rest else k :: pyKeysAux (k :: seen) rest

/-- Keys of a write sequence in Python dict order. -/
def pyKeys (l : List (Nat × String)) : List Nat :=
  pyKeysAux [] (l.map Prod.fst)

/-- The `for slot in fronts_by_slots.keys()` loop of
`download_and_collect_images`:
`paths_by_slot[slot] = (backs_by_slots.get(slot, backs_by_slots[0]), fronts_by_slots[slot])`.
Python evaluates the fallback argument `backs_by_slots[0]` eagerly on every
iteration, so the loop raises `KeyError` whenever slot 0 has no back entry. -/
def collectLoop (backs fronts : List (Nat × String)) :
    List Nat → Except PyError (List (Nat × String × String))
  | [] => Except.ok []
  | s :: rest =>
      match dictGet backs 0 with
      | none => Except.error PyError.keyError
      | some dflt =>
          match dictGet fronts s with
          | none => Except.error PyError.keyError
          | some fval =>
              match collectLoop backs fronts rest with
              | Except.error err => Except.error err
              | Except.ok tail =>
                  Except.ok ((s, (dictGet backs s).getD dflt, fval) :: tail)

/-- Embeds the resolution part of `download_and_collect_images` (after the
concurrent downloads complete): build the two slot dicts and produce
`paths_by_slot`. -/
def download_and_collect_images (backsCards frontsCards : List Card) :
    Except PyError (List (Nat × String × String)) :=
  let backs := slotWrites backsCards
  let fronts := slotWrites frontsCards
  collectLoop backs fronts (pyKeys fronts)

/-! Conditioning pipeline (`prepare_images` and helpers). -/

/-- An ImageMagick invocation performed by the conditioning code. -/
inductive Transform
  | convertJpg (src dst : String)
  | compress (path : String)
  | reshape (path : String)
  | downsize (path : String)
deriving DecidableEq, Repr

/-- `image_path.endswith('jpg')`, decided on the reversed character list. -/
def endsJpg (p : String) : Bool :=
  match p.data.reverse with
  | 'g' :: 'p' :: 'j' :: _ => true
  | _ => false

/-- Index of the last `'.'` in the character list (`image_path.rfind(".")`),
`none` when Python would return `-1`. -/
def lastDotIdx (l : List Char) : Option Nat :=
  (List.filter (fun i => l.getD i ' ' = '.') (List.range l.length)).getLast?

/-- Embeds `new_jpg_path`: `image_path[:image_path.rfind(".")] + ".jpg"`.
When the path has no dot, `rfind` returns `-1` and the Python slice
`image_path[:-1]` drops the final character. -/
def new_jpg_path (p : String) : String :=
  match lastDotIdx p.data with
  | some i => String.mk (p.data.take i) ++ ".jpg"
  | none => String.mk (p.data.take (p.data.length - 1)) ++ ".jpg"

/-- Embeds `convert_to_jpg` over a filesystem abstracted to the existence
check `fs`: returns the (possibly new) path and the conversion commands
actually invoked. -/
def convert_to_jpg (fs : String → Bool) (p : String) : String × List Transform :=
  if endsJpg p then (p, [])
  else if fs (new_jpg_path p) then (new_jpg_path p, [])
  else (new_jpg_path p, [Transform.convertJpg p (new_jpg_path p)])

/-- One parsed line of `identify -verbose` output: either a Geometry line
carrying the pixel width and height, or anything else. -/
inductive IdentifyLine
  | geometry (w h : Nat)
  | other
deriving DecidableEq, Repr

/-- Python `round(q, 1)` on an exact rational: round to the nearest multiple
of `1/10`, ties to the even multiple (banker's rounding). -/
def pyRound1 (q : ℚ) : ℚ :=
  let m := q * 10
  let f : ℤ := ⌊m⌋
  let r : ℚ := m - f
  let n : ℤ :=
    if r < 1 / 2 then f else if 1 / 2 < r then f + 1
    else if f % 2 = 0 then f else f + 1
  (n : ℚ) / 10

/-- The three need-flags returned by `images_havent_been_prepared`, in the
order of the returned list `[need_downsize, need_reshape, need_compression]`. -/
structure PrepFlags where
  need_downsize : Bool
  need_reshape : Bool
  need_compression : Bool
deriving DecidableEq, Repr

/-- One iteration of the line scan in `images_havent_been_prepared`: on a
Geometry line compare `round(w/63, 1)` with `round(h/88, 1)` and clear
`need_reshape` on a match; all other lines leave the flags unchanged. -/
def scanLine (flags : PrepFlags) (line : IdentifyLine) : PrepFlags :=
  match line with
  | IdentifyLine.geometry w h =>
      let w_rel := pyRound1 ((w : ℚ) / 63)
      let h_rel := pyRound1 ((h : ℚ) / 88)
      if w_rel = h_rel then { flags with need_reshape := false } else flags
  | IdentifyLine.other => flags

/-- Embeds `images_havent_been_prepared`: scan the identify output lines
starting from `need_downsize = False`, `need_reshape = True`,
`need_compression = False`. -/
def images_havent_been_prepared (lines : List IdentifyLine) : PrepFlags :=
  lines.foldl scanLine ⟨false, true, false⟩

/-- Embeds the per-slot body of `prepare_images`: convert the front to jpg,
re-store the new path, then apply compression, reshape and downsize in that
order, each guarded by its flag from the preparedness check.  `oracle` gives
the parsed `identify` output for a path. -/
def prepare_slot (fs : String → Bool) (oracle : String → List IdentifyLine)
    (e : Nat × String × String) : (Nat × String × String) × List Transform :=
  let conv := convert_to_jpg fs e.2.2
  let jp := conv.1
  let flags := images_havent_been_prepared (oracle jp)
  let cmds := conv.2
    ++ (if flags.need_compression then [Transform.compress jp] else [])
    ++ (if flags.need_reshape then [Transform.reshape jp] else [])
    ++ (if flags.need_downsize then [Transform.downsize jp] else [])
  ((e.1, e.2.1, jp), cmds)

/-- Embeds `prepare_images`: condition every slot of `paths_by_slot`,
returning the updated mapping and every transform invoked, in order. -/
def prepare_images (fs : String → Bool) (oracle : String → List IdentifyLine) :
    List (Nat × String × String) → List (Nat × String × String) × List Transform
  | [] => ([], [])
  | e :: rest =>
      let pe := prepare_slot fs oracle e
      let pr := prepare_images fs oracle rest
      (pe.1 :: pr.1, pe.2 ++ pr.2)

/-! Top-level control flow (`execute`) and configuration (`ask_questions`). -/

/-- The result of an `execute` run: the single grid document together with the
conditioning transforms that ran before it, or the sequential documents. -/
inductive ExportOutcome
  | grid (doc : A3Doc) (transforms : List Transform)
  | seq (docs : List SavedDoc)
deriving DecidableEq, Repr

/-- Embeds `PdfExporter.execute`: download and collect the images, then
either (separate faces) condition with `prepare_images` and lay out with
`export_a3`, or (otherwise) lay out directly with `export` — the sequential
branch performs no conditioning.  The `number_of_cards_per_file = 1`
assignment in the grid branch is dropped: `export_a3` never reads it. -/
def execute (separate_faces : Bool) (k : Nat) (fs : String → Bool)
    (oracle : String → List IdentifyLine) (backsCards frontsCards : List Card) :
    Except PyError ExportOutcome :=
  match download_and_collect_images backsCards frontsCards with
  | Except.error err => Except.error err
  | Except.ok paths =>
      if separate_faces then
        let pr := prepare_images fs oracle paths
        Except.ok (ExportOutcome.grid (export_a3 pr.1) pr.2)
      else
        match exportPdf k paths with
        | Except.error err => Except.error err
        | Except.ok docs => Except.ok (ExportOutcome.seq docs)

/-- Embeds the `number_of_cards_per_file` assignment of `ask_questions`:
the separate-faces answer forces `1`; otherwise the numeric answer is clamped
below by `1` (`1 if (int_cards_per_file := int(...)) < 1 else int_cards_per_file`). -/
def ask_questions_cards_per_file (split_faces : Bool) (cards_per_file : Int) : Int :=
  if split_faces then 1 else if cards_per_file < 1 then 1 else cards_per_file

/-! Closed forms the layout theorems compare the loops against. -/

/-- The pages a contiguous run of slots contributes in sequential mode:
for each slot, its back page then its front page. -/
def batchPages (backs fronts : Nat → String) (start len : Nat) : List PlacedImage :=
  (List.range' start len).flatMap
    (fun s => [mkCardPage (backs s), mkCardPage (fronts s)])

/-- A contiguous slot mapping over indices `0 .. n-1` in ascending order. -/
def contigEntries (backs fronts : Nat → String) (n : Nat) :
    List (Nat × String × String) :=
  (List.range n).map (fun s => (s, backs s, fronts s))

/-- The documents sequential mode is expected to save for `n` contiguous
slots and `k` cards per document: document `j` (1-based) holds the batch
starting at slot `(j-1)*k`, of `k` slots except possibly the last. -/
def seqDocs (backs fronts : Nat → String) (k n : Nat) : List SavedDoc :=
  (List.range ((n - 1) / k + 1)).map
    (fun j => ⟨j + 1, batchPages backs fronts (j * k) (min k (n - j * k))⟩)

/-- The placements grid-sheet mode is expected to make: the `i`-th placed
slot's front image on page `i / 18` at column `i % 6`, row `i / 6 % 3`. -/
def a3Expected (entries : List (Nat × String × String)) : List A3Placement :=
  (List.range entries.length).map (fun j =>
    ⟨j / 18, (entries.getD j (0, "", "")).2.2, a3x j, a3y j, a3_image_w, a3_image_h⟩)

example : exportPdf 1 [(0, "b0", "f0"), (1, "b1", "f1")] =
    Except.ok [⟨1, [mkCardPage "b0", mkCardPage "f0"]⟩,
               ⟨2, [mkCardPage "b1", mkCardPage "f1"]⟩] := by rfl

example : exportPdf 60 [] = Except.error PyError.attributeError := by rfl

example : (export_a3 [(0, "b0", "f0")]).placements =
    [⟨0, "f0", a3x 0, a3y 0, a3_image_w, a3_image_h⟩] := by rfl

/-! Closed form of the grid-sheet loop. -/

/-- Appending one entry extends the expected grid placements by one front
image at index `l.length`. -/
lemma a3Expected_append (l : List (Nat × String × String))
    (e : Nat × String × String) :
    a3Expected (l ++ [e]) =
      a3Expected l ++
        [⟨l.length / 18, e.2.2, a3x l.length, a3y l.length,
          a3_image_w, a3_image_h⟩] := by
  unfold a3Expected
  rw [List.length_append, List.length_singleton, List.range_succ,
    List.map_append]
  congr 1
  · apply List.map_congr_left
    intro j hj
    rw [List.mem_range] at hj
    rw [List.getD_append _ _ _ _ hj]
  · simp [List.getD_append_right]

/-- The `export_a3` loop state after processing all entries: counter
`entries.length`, current page `(entries.length - 1) / 18`, and exactly the
expected placements. -/
lemma a3_foldl_eq (entries : List (Nat × String × String)) :
    List.foldl a3Step ⟨0, 0, []⟩ entries =
      ⟨entries.length, (entries.length - 1) / 18, a3Expected entries⟩ := by
  induction entries using List.reverseRecOn with
  | nil => rfl
  | append_singleton l e ih =>
      rw [List.foldl_append, List.foldl_cons, List.foldl_nil, ih]
      have hpage : (if 0 < l.length ∧ l.length % 18 = 0
            then (l.length - 1) / 18 + 1 else (l.length - 1) / 18) =
          ((l.length + 1) - 1) / 18 := by
        split
        · omega
        · omega
      rw [a3Expected_append]
      simp only [a3Step, List.length_append, List.length_singleton]
      split
      · rename_i h
        simp only [if_pos h] at hpage
        simp [hpage]
      · rename_i h
        simp only [if_neg h] at hpage
        simp [hpage]

/-- C1: in grid-sheet mode, for every non-empty slot mapping iterated in
ascending slot order, the i-th placed slot has exactly its front image placed
(never its back), on page `i / 18`, at
`x = left + (i % 6) * image_w + (i % 6) * gap` and
`y = top + (i / 6 % 3) * image_h + (i / 6 % 3) * gap`, and a new sheet page
is started exactly at the nonzero multiples of 18 (total sheet pages
`(n - 1) / 18 + 1 = ⌈n / 18⌉`); the code's `int(i / 6 % 3)` float expression
is embedded as integer `i / 6 % 3`, to which it evaluates for every machine
slot count. -/
theorem export_a3_grid_layout (entries : List (Nat × String × String))
    (_hne : entries ≠ []) :
    (export_a3 entries).placements.length = entries.length ∧
    (∀ i, i < entries.length →
      (export_a3 entries).placements.getD i ⟨0, "", 0, 0, 0, 0⟩ =
        ⟨i / 18, (entries.getD i (0, "", "")).2.2, a3x i, a3y i,
          a3_image_w, a3_image_h⟩) ∧
    (export_a3 entries).pages = (entries.length - 1) / 18 + 1 := by
  unfold export_a3
  rw [a3_foldl_eq]
  refine ⟨by simp [a3Expected], fun i hi => ?_, rfl⟩
  simp only [a3Expected]
  rw [List.getD_eq_getElem _ _ (by simpa using hi)]
  simp [hi]

/-- Concrete slot mapping crossing a sheet-page boundary (19 slots). -/
def a3DemoEntries : List (Nat × String × String) :=
  (List.range 19).map (fun s => (s, "back.jpg", "front.jpg"))

/-- Witness for C1: the 19-slot mapping is non-empty and satisfies the
grid-layout characterization. -/
theorem export_a3_grid_layout_witness :
    a3DemoEntries ≠ [] ∧
    ((export_a3 a3DemoEntries).placements.length = a3DemoEntries.length ∧
    (∀ i, i < a3DemoEntries.length →
      (export_a3 a3DemoEntries).placements.getD i ⟨0, "", 0, 0, 0, 0⟩ =
        ⟨i / 18, (a3DemoEntries.getD i (0, "", "")).2.2, a3x i, a3y i,
          a3_image_w, a3_image_h⟩) ∧
    (export_a3 a3DemoEntries).pages = (a3DemoEntries.length - 1) / 18 + 1) :=
  ⟨by decide, export_a3_grid_layout a3DemoEntries (by decide)⟩

/-- C3 counterexample: on the empty slot mapping neither mode reports a
`LayoutError` (no such error exists in the code): sequential `export` raises
`AttributeError` by calling `save_file` on the never-initialized `self.pdf`,
and `export_a3` silently saves a document with one cut-guide page and zero
placed images. -/
theorem empty_input_no_layout_error :
    exportPdf 60 [] = Except.error PyError.attributeError ∧
    export_a3 [] = ⟨1, []⟩ :=
  ⟨rfl, rfl⟩

/-! Closed form of the sequential-mode loop. -/

/-- The sequential loop state after processing the contiguous slots
`0 .. n-1` with `k` cards per file: the current document holds the slots of
the running batch (which starts at slot `((n-1)/k)*k`), `file_num` is
`(n-1)/k + 1`, and one full `k`-slot document has been saved per completed
batch. -/
def seqStateAfter (backs fronts : Nat → String) (k n : Nat) : SeqState :=
  if n = 0 then ⟨none, 1, []⟩
  else
    ⟨some (batchPages backs fronts (((n - 1) / k) * k) (n - ((n - 1) / k) * k)),
     (n - 1) / k + 1,
     (List.range ((n - 1) / k)).map
       (fun j => ⟨j + 1, batchPages backs fronts (j * k) k⟩)⟩

/-- A contiguous mapping over `n + 1` slots is the mapping over `n` slots
followed by the entry for slot `n`. -/
lemma contigEntries_succ (b f : Nat → String) (n : Nat) :
    contigEntries b f (n + 1) = contigEntries b f n ++ [(n, b n, f n)] := by
  unfold contigEntries
  rw [List.range_succ, List.map_append]
  rfl

/-- A batch of one more slot appends that slot's back page and front page. -/
lemma batchPages_concat (b f : Nat → String) (start len : Nat) :
    batchPages b f start (len + 1) =
      batchPages b f start len ++
        [mkCardPage (b (start + len)), mkCardPage (f (start + len))] := by
  unfold batchPages
  rw [List.range'_concat, List.flatMap_append]
  simp

/-- The export loop distributes over list append, propagating errors. -/
lemma exportLoop_append (k : Nat) (st : SeqState)
    (l1 l2 : List (Nat × String × String)) :
    exportLoop k st (l1 ++ l2) =
      match exportLoop k st l1 with
      | Except.error err => Except.error err
      | Except.ok st1 => exportLoop k st1 l2 := by
  induction l1 generalizing st with
  | nil => rfl
  | cons e rest ih =>
      rw [show (e :: rest) ++ l2 = e :: (rest ++ l2) from rfl]
      cases hstep : seqStep k st e with
      | error err => simp [exportLoop, hstep]
      | ok st1 =>
          simp only [exportLoop, hstep]
          exact ih st1

/-- Processing slot `n` from the state reached after slots `0 .. n-1`
yields the state for `n + 1` slots: slot `0` opens the first document, a slot
at a nonzero multiple of `k` saves the full document and opens the next one,
and every slot appends its back page then its front page. -/
lemma seqStep_contig (b f : Nat → String) (k : Nat) (hk : 1 ≤ k) (n : Nat) :
    seqStep k (seqStateAfter b f k n) (n, b n, f n) =
      Except.ok (seqStateAfter b f k (n + 1)) := by
  have hk0 : ¬(k = 0) := by omega
  rcases Nat.eq_zero_or_pos n with hn | hn
  · subst hn
    simp only [seqStateAfter, if_pos rfl, if_neg (by norm_num : ¬(0 + 1 = 0))]
    simp [seqStep, add_image, batchPages, List.range'_succ, Nat.zero_div]
  · have hn0 : ¬(n = 0) := by omega
    have hs : n - 1 + 1 = n := by omega
    have hsucc : n / k = (n - 1) / k + if k ∣ n then 1 else 0 := by
      have h := Nat.succ_div (n - 1) k
      rwa [hs] at h
    by_cases hdvd : k ∣ n
    · have hmod : n % k = 0 := Nat.dvd_iff_mod_eq_zero.mp hdvd
      have hq : n / k = (n - 1) / k + 1 := by rw [hsucc, if_pos hdvd]
      have hdk : ((n - 1) / k + 1) * k = n := by
        have h2 := Nat.div_mul_cancel hdvd
        rw [hq] at h2
        exact h2
      have hexp : ((n - 1) / k + 1) * k = ((n - 1) / k) * k + k := by ring
      have hlen : n - ((n - 1) / k) * k = k := by omega
      simp only [seqStateAfter, if_neg hn0, if_neg (show ¬(n + 1 = 0) by omega)]
      rw [show n + 1 - 1 = n from rfl]
      simp only [seqStep, add_image]
      rw [if_neg hn0, if_neg hk0, if_pos hmod]
      simp only [Except.ok.injEq, SeqState.mk.injEq]
      refine ⟨?_, by rw [hq], ?_⟩
      · rw [hq, hdk, show n + 1 - n = 1 by omega]
        simp [batchPages, List.range'_one]
      · rw [hlen, hq, List.range_succ, List.map_append]
        rfl
    · have hmod : ¬(n % k = 0) := fun h =>
        hdvd (Nat.dvd_iff_mod_eq_zero.mpr h)
      have hq : n / k = (n - 1) / k := by rw [hsucc, if_neg hdvd]; omega
      have hle : ((n - 1) / k) * k ≤ n := by
        calc ((n - 1) / k) * k ≤ n - 1 := Nat.div_mul_le_self (n - 1) k
        _ ≤ n := by omega
      simp only [seqStateAfter, if_neg hn0, if_neg (show ¬(n + 1 = 0) by omega)]
      rw [show n + 1 - 1 = n from rfl]
      simp only [seqStep, add_image]
      rw [if_neg hn0, if_neg hk0, if_neg hmod]
      simp only [Except.ok.injEq, SeqState.mk.injEq]
      refine ⟨?_, by rw [hq], by rw [hq]⟩
      rw [hq,
        show n + 1 - ((n - 1) / k) * k = (n - ((n - 1) / k) * k) + 1 by omega,
        batchPages_concat,
        show ((n - 1) / k) * k + (n - ((n - 1) / k) * k) = n by omega]
      simp

/-- The sequential export loop over a contiguous mapping never fails and
reaches the closed-form state. -/
lemma exportLoop_contig (b f : Nat → String) (k : Nat) (hk : 1 ≤ k) (n : Nat) :
    exportLoop k ⟨none, 1, []⟩ (contigEntries b f n) =
      Except.ok (seqStateAfter b f k n) := by
  induction n with
  | zero => rfl
  | succ n ih =>
      rw [contigEntries_succ, exportLoop_append, ih]
      have hstep := seqStep_contig b f k hk n
      simp only [exportLoop, hstep]

/-- C2: in sequential mode, over a contiguous slot mapping `0 .. n-1` with
`n ≥ 1` and `k ≥ 1` cards per document, export succeeds and saves exactly the
closed-form documents: `⌈n / k⌉ = (n + k - 1) / k` of them, numbered
consecutively from 1, where document `j` (1-based) is started at slot
`(j-1)*k` (a nonzero multiple of `k`, after saving its predecessor) and
contains, for each of its `min k (n - (j-1)*k)` slots, the back page then the
front page as consecutive full-bleed pages at the configured card size; the
final possibly-partial document is saved after the loop. -/
theorem export_sequential_documents (b f : Nat → String) (k n : Nat)
    (hk : 1 ≤ k) (hn : 1 ≤ n) :
    exportPdf k (contigEntries b f n) = Except.ok (seqDocs b f k n) ∧
    (seqDocs b f k n).length = (n + k - 1) / k ∧
    (seqDocs b f k n).map SavedDoc.fileNum =
      (List.range ((n + k - 1) / k)).map (fun j => j + 1) := by
  have hn0 : ¬(n = 0) := by omega
  have hcount : (n + k - 1) / k = (n - 1) / k + 1 := by
    rw [show n + k - 1 = (n - 1) + k by omega, Nat.add_div_right _ (by omega)]
  have hdm := Nat.div_add_mod (n - 1) k
  have hml : (n - 1) % k < k := Nat.mod_lt _ (by omega)
  have hc : k * ((n - 1) / k) = ((n - 1) / k) * k := Nat.mul_comm _ _
  refine ⟨?_, ?_, ?_⟩
  · unfold exportPdf
    rw [exportLoop_contig b f k hk n]
    simp only [seqStateAfter, if_neg hn0]
    unfold seqDocs
    rw [List.range_succ, List.map_append]
    simp only [Except.ok.injEq]
    congr 1
    · apply List.map_congr_left
      intro j hj
      rw [List.mem_range] at hj
      have h1 : (j + 1) * k ≤ ((n - 1) / k) * k :=
        Nat.mul_le_mul_right k (by omega)
      have h2 : ((n - 1) / k) * k ≤ n - 1 := Nat.div_mul_le_self _ _
      have h3 : (j + 1) * k = j * k + k := by ring
      rw [show min k (n - j * k) = k by omega]
    · rw [List.map_singleton,
        show min k (n - ((n - 1) / k) * k) = n - ((n - 1) / k) * k by omega]
  · rw [hcount]
    unfold seqDocs
    rw [List.length_map, List.length_range]
  · rw [hcount]
    unfold seqDocs
    rw [List.map_map]
    apply List.map_congr_left
    intro j _
    rfl

/-- Concrete back/front artifact names for the sequential-mode witness. -/
def seqDemoBacks : Nat → String := fun s => "back" ++ toString s ++ ".png"

/-- Concrete front artifact names for the sequential-mode witness. -/
def seqDemoFronts : Nat → String := fun s => "front" ++ toString s ++ ".png"

/-- Witness for C2: 5 contiguous slots at 2 cards per document give 3
documents (the last partial), numbered 1, 2, 3. -/
theorem export_sequential_documents_witness :
    1 ≤ 2 ∧ 1 ≤ 5 ∧
    (exportPdf 2 (contigEntries seqDemoBacks seqDemoFronts 5) =
        Except.ok (seqDocs seqDemoBacks seqDemoFronts 2 5) ∧
      (seqDocs seqDemoBacks seqDemoFronts 2 5).length = (5 + 2 - 1) / 2 ∧
      (seqDocs seqDemoBacks seqDemoFronts 2 5).map SavedDoc.fileNum =
        (List.range ((5 + 2 - 1) / 2)).map (fun j => j + 1)) :=
  ⟨by decide, by decide,
    export_sequential_documents seqDemoBacks seqDemoFronts 2 5
      (by decide) (by decide)⟩

/-- C3 amended: for the empty slot mapping, sequential-mode `export` fails
with `AttributeError` (from `None.output(...)`) for every configured
cards-per-file value, and grid-sheet `export_a3` silently produces a saved
single-page document with no images; no `LayoutError` is reported in either
mode. -/
theorem empty_input_behaviour (k : Nat) :
    exportPdf k [] = Except.error PyError.attributeError ∧
    export_a3 [] = ⟨1, []⟩ :=
  ⟨rfl, rfl⟩

/-! Configuration safety (C9). -/

/-- With a nonzero cards-per-file the loop body can only fail with
`AttributeError`, never `ZeroDivisionError`. -/
lemma seqStep_error_attr (k : Nat) (hk : ¬(k = 0)) (st : SeqState)
    (e : Nat × String × String) (err : PyError)
    (h : seqStep k st e = Except.error err) : err = PyError.attributeError := by
  rcases e with ⟨slot, back, front⟩
  by_cases h0 : slot = 0
  · simp only [seqStep, if_pos h0, add_image] at h
    cases h
  · by_cases hm : slot % k = 0
    · simp only [seqStep, if_neg h0, if_neg hk, if_pos hm, add_image] at h
      cases hpdf : st.pdf with
      | none => rw [hpdf] at h; cases h; rfl
      | some pgs => rw [hpdf] at h; cases h
    · simp only [seqStep, if_neg h0, if_neg hk, if_neg hm, add_image] at h
      cases hpdf : st.pdf with
      | none => rw [hpdf] at h; cases h; rfl
      | some pgs => rw [hpdf] at h; cases h

/-- The sequential loop never raises `ZeroDivisionError` when `k ≥ 1`. -/
lemma exportLoop_ne_zeroDiv (k : Nat) (hk : 1 ≤ k)
    (l : List (Nat × String × String)) : ∀ st : SeqState,
    exportLoop k st l ≠ Except.error PyError.zeroDivisionError := by
  induction l with
  | nil => intro st h; cases h
  | cons e rest ih =>
      intro st h
      cases hstep : seqStep k st e with
      | error err =>
          simp only [exportLoop, hstep] at h
          cases h
          exact absurd (seqStep_error_attr k (by omega) st e _ hstep) (by decide)
      | ok st1 =>
          simp only [exportLoop, hstep] at h
          exact ih st1 h

/-- `export` never raises `ZeroDivisionError` when `k ≥ 1`. -/
lemma exportPdf_ne_zeroDiv (k : Nat) (hk : 1 ≤ k)
    (entries : List (Nat × String × String)) :
    exportPdf k entries ≠ Except.error PyError.zeroDivisionError := by
  unfold exportPdf
  cases hloop : exportLoop k ⟨none, 1, []⟩ entries with
  | error err =>
      have hattr : ¬(err = PyError.zeroDivisionError) := by
        intro he
        subst he
        exact exportLoop_ne_zeroDiv k hk entries ⟨none, 1, []⟩ hloop
      intro h
      cases h
      exact hattr rfl
  | ok st =>
      rcases st with ⟨pdf, fileNum, saved⟩
      cases pdf with
      | none => intro h; cases h
      | some pgs => intro h; cases h

/-- C9: `ask_questions` always yields `number_of_cards_per_file ≥ 1` (the
separate-faces answer forces 1, numeric answers below 1 are clamped to 1), so
the `slot % number_of_cards_per_file` expression in sequential-mode export
never divides by zero for any slot mapping. -/
theorem cards_per_file_positive :
    (∀ sf : Bool, ∀ c : Int, 1 ≤ ask_questions_cards_per_file sf c) ∧
    (∀ sf : Bool, ∀ c : Int, ∀ entries : List (Nat × String × String),
      exportPdf (ask_questions_cards_per_file sf c).toNat entries ≠
        Except.error PyError.zeroDivisionError) := by
  have h1 : ∀ sf : Bool, ∀ c : Int, 1 ≤ ask_questions_cards_per_file sf c := by
    intro sf c
    unfold ask_questions_cards_per_file
    split
    · omega
    · split <;> omega
  refine ⟨h1, fun sf c entries => ?_⟩
  apply exportPdf_ne_zeroDiv
  have h2 := h1 sf c
  omega

/-! Placeholder flags of the preparedness check (C7, C10). -/

/-- The line scan never touches `need_downsize` or `need_compression`. -/
lemma scan_preserves_placeholders (lines : List IdentifyLine) :
    ∀ flags : PrepFlags,
    (lines.foldl scanLine flags).need_downsize = flags.need_downsize ∧
    (lines.foldl scanLine flags).need_compression = flags.need_compression := by
  induction lines with
  | nil => intro flags; exact ⟨rfl, rfl⟩
  | cons l rest ih =>
      intro flags
      rw [List.foldl_cons]
      have h := ih (scanLine flags l)
      have hstep : (scanLine flags l).need_downsize = flags.need_downsize ∧
          (scanLine flags l).need_compression = flags.need_compression := by
        cases l with
        | geometry w h =>
            simp only [scanLine]
            split
            · exact ⟨rfl, rfl⟩
            · exact ⟨rfl, rfl⟩
        | other => exact ⟨rfl, rfl⟩
      exact ⟨h.1.trans hstep.1, h.2.trans hstep.2⟩

/-- The conversion step emits no command or exactly the one jpg conversion. -/
lemma convert_to_jpg_cmds (fs : String → Bool) (q : String) :
    (convert_to_jpg fs q).2 = [] ∨
    (convert_to_jpg fs q).2 = [Transform.convertJpg q (new_jpg_path q)] := by
  unfold convert_to_jpg
  split
  · exact Or.inl rfl
  · split
    · exact Or.inl rfl
    · exact Or.inr rfl

/-- `prepare_slot` never emits a downsize command. -/
lemma downsize_not_in_prepare_slot (fs : String → Bool)
    (oracle : String → List IdentifyLine) (e : Nat × String × String)
    (p : String) :
    Transform.downsize p ∉ (prepare_slot fs oracle e).2 := by
  have hd := (scan_preserves_placeholders (oracle (convert_to_jpg fs e.2.2).1)
    ⟨false, true, false⟩).1
  unfold prepare_slot
  simp only [images_havent_been_prepared] at hd ⊢
  rcases convert_to_jpg_cmds fs e.2.2 with h | h <;>
    simp [h, hd]

/-- `prepare_slot` never emits a compress command: the compression flag is the
unconditionally-false placeholder. -/
lemma compress_not_in_prepare_slot (fs : String → Bool)
    (oracle : String → List IdentifyLine) (e : Nat × String × String)
    (p : String) :
    Transform.compress p ∉ (prepare_slot fs oracle e).2 := by
  have hc := (scan_preserves_placeholders (oracle (convert_to_jpg fs e.2.2).1)
    ⟨false, true, false⟩).2
  unfold prepare_slot
  simp only [images_havent_been_prepared] at hc ⊢
  rcases convert_to_jpg_cmds fs e.2.2 with h | h <;>
    simp [h, hc]

/-- C7: the preparedness check returns `need_downsize = false` for every
inspected artifact regardless of its geometry, and consequently
`prepare_images` never invokes `downsize_image` on any artifact. -/
theorem need_downsize_placeholder :
    (∀ lines : List IdentifyLine,
      (images_havent_been_prepared lines).need_downsize = false) ∧
    (∀ (fs : String → Bool) (oracle : String → List IdentifyLine)
      (entries : List (Nat × String × String)) (p : String),
      Transform.downsize p ∉ (prepare_images fs oracle entries).2) := by
  constructor
  · intro lines
    exact (scan_preserves_placeholders lines ⟨false, true, false⟩).1
  · intro fs oracle entries p
    induction entries with
    | nil => simp [prepare_images]
    | cons e rest ih =>
        simp only [prepare_images, List.mem_append]
        push_neg
        exact ⟨downsize_not_in_prepare_slot fs oracle e p, ih⟩

/-- C10: the preparedness check returns `need_compression = false` for every
inspected artifact (the quality inspection is commented out), and consequently
`prepare_images` never invokes `compress_image` on any artifact. -/
theorem need_compression_placeholder :
    (∀ lines : List IdentifyLine,
      (images_havent_been_prepared lines).need_compression = false) ∧
    (∀ (fs : String → Bool) (oracle : String → List IdentifyLine)
      (entries : List (Nat × String × String)) (p : String),
      Transform.compress p ∉ (prepare_images fs oracle entries).2) := by
  constructor
  · intro lines
    exact (scan_preserves_placeholders lines ⟨false, true, false⟩).2
  · intro fs oracle entries p
    induction entries with
    | nil => simp [prepare_images]
    | cons e rest ih =>
        simp only [prepare_images, List.mem_append]
        push_neg
        exact ⟨compress_not_in_prepare_slot fs oracle e p, ih⟩

/-! Reshape-need detection (C5). -/

/-- Lines without geometry information leave the flags unchanged. -/
lemma scan_other_id (lines : List IdentifyLine)
    (h : ∀ l ∈ lines, l = IdentifyLine.other) :
    ∀ flags : PrepFlags, lines.foldl scanLine flags = flags := by
  induction lines with
  | nil => intro flags; rfl
  | cons l rest ih =>
      intro flags
      have hl : l = IdentifyLine.other := h l (List.mem_cons_self l rest)
      rw [List.foldl_cons, hl]
      exact ih (fun x hx => h x (List.mem_cons_of_mem l hx)) flags

/-- C5: for an inspected artifact whose identify output carries the pixel
geometry `(w, h)` (one Geometry line among otherwise uninformative lines),
the reshape-need flag is false iff `round(w/63, 1) = round(h/88, 1)`;
concretely, 630×880 yields `need_reshape = false`, 600×880 yields
`need_reshape = true`, and output with no Geometry line at all leaves
`need_reshape = true`. -/
theorem reshape_flag_spec (w h : Nat) (pre post lines : List IdentifyLine)
    (hpre : ∀ l ∈ pre, l = IdentifyLine.other)
    (hpost : ∀ l ∈ post, l = IdentifyLine.other)
    (hlines : ∀ l ∈ lines, l = IdentifyLine.other) :
    ((images_havent_been_prepared
        (pre ++ IdentifyLine.geometry w h :: post)).need_reshape = false ↔
      pyRound1 ((w : ℚ) / 63) = pyRound1 ((h : ℚ) / 88)) ∧
    (images_havent_been_prepared
      [IdentifyLine.geometry 630 880]).need_reshape = false ∧
    (images_havent_been_prepared
      [IdentifyLine.geometry 600 880]).need_reshape = true ∧
    (images_havent_been_prepared lines).need_reshape = true := by
  refine ⟨?_, ?_, ?_, ?_⟩
  · unfold images_havent_been_prepared
    rw [List.foldl_append, scan_other_id pre hpre, List.foldl_cons,
      scan_other_id post hpost]
    by_cases hcond : pyRound1 ((w : ℚ) / 63) = pyRound1 ((h : ℚ) / 88)
    · simp [scanLine, hcond]
    · simp [scanLine, hcond]
  · norm_num [images_havent_been_prepared, scanLine, pyRound1]
  · norm_num [images_havent_been_prepared, scanLine, pyRound1]
  · unfold images_havent_been_prepared
    rw [scan_other_id lines hlines]

/-- Witness for C5: the characterization applied to a single geometry line
surrounded by non-geometry lines. -/
theorem reshape_flag_spec_witness :
    (∀ l ∈ [IdentifyLine.other], l = IdentifyLine.other) ∧
    (((images_havent_been_prepared
        ([IdentifyLine.other] ++
          IdentifyLine.geometry 630 880 :: [IdentifyLine.other])).need_reshape
          = false ↔
      pyRound1 ((630 : ℚ) / 63) = pyRound1 ((880 : ℚ) / 88)) ∧
    (images_havent_been_prepared
      [IdentifyLine.geometry 630 880]).need_reshape = false ∧
    (images_havent_been_prepared
      [IdentifyLine.geometry 600 880]).need_reshape = true ∧
    (images_havent_been_prepared [IdentifyLine.other]).need_reshape = true) :=
  ⟨by decide,
    reshape_flag_spec 630 880 [IdentifyLine.other] [IdentifyLine.other]
      [IdentifyLine.other] (by decide) (by decide) (by decide)⟩

/-! Format normalization idempotence (C6). -/

/-- Appending the `".jpg"` extension always yields a path ending in `jpg`. -/
lemma endsJpg_append_jpg (s : String) : endsJpg (s ++ ".jpg") = true := by
  have h : (s ++ ".jpg").data.reverse =
      'g' :: 'p' :: 'j' :: '.' :: s.data.reverse := by
    rw [String.data_append, List.reverse_append]
    rfl
  unfold endsJpg
  rw [h]
  rfl

/-- `new_jpg_path` always produces a path ending in `jpg`. -/
lemma endsJpg_new_jpg_path (p : String) : endsJpg (new_jpg_path p) = true := by
  unfold new_jpg_path
  rcases lastDotIdx p.data with _ | i
  · exact endsJpg_append_jpg _
  · exact endsJpg_append_jpg _

/-- A path already ending in `jpg` is returned unchanged with no conversion. -/
lemma convert_to_jpg_of_endsJpg (fs : String → Bool) (q : String)
    (h : endsJpg q = true) : convert_to_jpg fs q = (q, []) := by
  simp [convert_to_jpg, h]

/-- C6: `convert_to_jpg` returns the path unchanged with no conversion when
it already ends in `jpg`, reuses an existing on-disk jpg with no conversion,
and otherwise converts exactly once; hence a second conditioning run on the
returned artifact path invokes no conversion at all (the artifact is left
untouched). -/
theorem convert_to_jpg_idempotent (fs fs2 : String → Bool) (p : String) :
    (endsJpg p = true → convert_to_jpg fs p = (p, [])) ∧
    (endsJpg p = false → fs (new_jpg_path p) = true →
      convert_to_jpg fs p = (new_jpg_path p, [])) ∧
    (endsJpg p = false → fs (new_jpg_path p) = false →
      convert_to_jpg fs p =
        (new_jpg_path p, [Transform.convertJpg p (new_jpg_path p)])) ∧
    convert_to_jpg fs2 (convert_to_jpg fs p).1 =
      ((convert_to_jpg fs p).1, []) := by
  refine ⟨?_, ?_, ?_, ?_⟩
  · intro h
    exact convert_to_jpg_of_endsJpg fs p h
  · intro h hf
    simp [convert_to_jpg, h, hf]
  · intro h hf
    simp [convert_to_jpg, h, hf]
  · have hj : endsJpg (convert_to_jpg fs p).1 = true := by
      unfold convert_to_jpg
      split
      · rename_i h
        simpa using h
      · split
        · exact endsJpg_new_jpg_path p
        · exact endsJpg_new_jpg_path p
    exact convert_to_jpg_of_endsJpg fs2 _ hj

/-- A filesystem on which no artifact exists yet. -/
def demoFsEmpty : String → Bool := fun _ => false

/-- A filesystem on which every artifact already exists. -/
def demoFsAll : String → Bool := fun _ => true

/-- Witness for C6: `"card.png"` is converted once on first run, and the
second run on the returned path performs no conversion. -/
theorem convert_to_jpg_idempotent_witness :
    endsJpg "card.png" = false ∧
    demoFsEmpty (new_jpg_path "card.png") = false ∧
    convert_to_jpg demoFsEmpty "card.png" =
      (new_jpg_path "card.png",
        [Transform.convertJpg "card.png" (new_jpg_path "card.png")]) ∧
    convert_to_jpg demoFsAll (convert_to_jpg demoFsEmpty "card.png").1 =
      ((convert_to_jpg demoFsEmpty "card.png").1, []) :=
  ⟨by decide, by decide,
    (convert_to_jpg_idempotent demoFsEmpty demoFsAll "card.png").2.2.1
      (by decide) (by decide),
    (convert_to_jpg_idempotent demoFsEmpty demoFsAll "card.png").2.2.2⟩

/-! Default-back resolution (C4). -/

/-- A key that was written is found by dict lookup. -/
lemma dictGet_isSome_of_mem (l : List (Nat × String)) (s : Nat)
    (h : s ∈ l.map Prod.fst) : ∃ v, dictGet l s = some v := by
  obtain ⟨p, hp, hps⟩ := List.mem_map.mp h
  have hfind : (List.find? (fun q => q.1 = s) l.reverse).isSome := by
    rw [List.find?_isSome]
    exact ⟨p, List.mem_reverse.mpr hp, by simp [hps]⟩
  obtain ⟨q, hq⟩ := Option.isSome_iff_exists.mp hfind
  exact ⟨q.2, by simp [dictGet, hq]⟩

/-- Every key produced by the dict key iteration was written. -/
lemma pyKeysAux_mem (l : List Nat) : ∀ (seen : List Nat) (x : Nat),
    x ∈ pyKeysAux seen l → x ∈ l := by
  induction l with
  | nil => intro seen x h; cases h
  | cons k rest ih =>
      intro seen x h
      unfold pyKeysAux at h
      split at h
      · exact List.mem_cons_of_mem k (ih seen x h)
      · rcases List.mem_cons.mp h with h1 | h1
        · exact h1 ▸ List.mem_cons_self k rest
        · exact List.mem_cons_of_mem k (ih (k :: seen) x h1)

/-- When the slot-0 back exists and every iterated key has a front, the
collection loop succeeds and resolves each slot to its back — or the slot-0
back as default — paired with its front. -/
lemma collectLoop_ok (backs fronts : List (Nat × String)) (d : String)
    (hd : dictGet backs 0 = some d) :
    ∀ keys : List Nat, (∀ s ∈ keys, ∃ v, dictGet fronts s = some v) →
    collectLoop backs fronts keys =
      Except.ok (keys.map (fun s =>
        (s, (dictGet backs s).getD d, (dictGet fronts s).getD ""))) := by
  intro keys
  induction keys with
  | nil => intro _; rfl
  | cons s rest ih =>
      intro hkeys
      obtain ⟨v, hv⟩ := hkeys s (List.mem_cons_self s rest)
      have htail := ih (fun x hx => hkeys x (List.mem_cons_of_mem s hx))
      unfold collectLoop
      rw [hd, hv, htail]
      simp [hv]

/-- C4: for every slot that has a front but no explicit back, resolution
assigns the designated default back — the slot-0 back path, which is what
`backs_by_slots.get(slot, backs_by_slots[0])` falls back to — and
`download_and_collect_images` does not fail on such mappings. -/
theorem download_default_back (backsCards frontsCards : List Card) (d : String)
    (hd : dictGet (slotWrites backsCards) 0 = some d) :
    download_and_collect_images backsCards frontsCards =
      Except.ok ((pyKeys (slotWrites frontsCards)).map (fun s =>
        (s, (dictGet (slotWrites backsCards) s).getD d,
          (dictGet (slotWrites frontsCards) s).getD ""))) ∧
    (∀ s ∈ pyKeys (slotWrites frontsCards),
      dictGet (slotWrites backsCards) s = none →
      (s, d, (dictGet (slotWrites frontsCards) s).getD "") ∈
        (pyKeys (slotWrites frontsCards)).map (fun s =>
          (s, (dictGet (slotWrites backsCards) s).getD d,
            (dictGet (slotWrites frontsCards) s).getD ""))) := by
  constructor
  · unfold download_and_collect_images
    apply collectLoop_ok _ _ d hd
    intro s hs
    apply dictGet_isSome_of_mem
    exact pyKeysAux_mem _ [] s hs
  · intro s hs hnone
    refine List.mem_map.mpr ⟨s, hs, ?_⟩
    rw [hnone]
    rfl

/-- Backs of the C4 witness order: one shared back covering only slot 0. -/
def c4Backs : List Card := [⟨[0], "shared-back.png"⟩]

/-- Fronts of the C4 witness order: one front covering slots 0 and 1, so
slot 1 has a front but no explicit back. -/
def c4Fronts : List Card := [⟨[0, 1], "front.png"⟩]

/-- Witness for C4: slot 1 is backless and receives the slot-0 default back;
resolution succeeds. -/
theorem download_default_back_witness :
    dictGet (slotWrites c4Backs) 0 = some "shared-back.png" ∧
    (download_and_collect_images c4Backs c4Fronts =
      Except.ok ((pyKeys (slotWrites c4Fronts)).map (fun s =>
        (s, (dictGet (slotWrites c4Backs) s).getD "shared-back.png",
          (dictGet (slotWrites c4Fronts) s).getD ""))) ∧
    (∀ s ∈ pyKeys (slotWrites c4Fronts),
      dictGet (slotWrites c4Backs) s = none →
      (s, "shared-back.png", (dictGet (slotWrites c4Fronts) s).getD "") ∈
        (pyKeys (slotWrites c4Fronts)).map (fun s =>
          (s, (dictGet (slotWrites c4Backs) s).getD "shared-back.png",
            (dictGet (slotWrites c4Fronts) s).getD "")))) :=
  ⟨by decide,
    download_default_back c4Backs c4Fronts "shared-back.png" (by decide)⟩

/-! Control flow of `execute` (C8). -/

/-- The conversion step always hands back a `jpg`-suffixed path. -/
lemma endsJpg_convert_fst (fs : String → Bool) (p : String) :
    endsJpg (convert_to_jpg fs p).1 = true := by
  unfold convert_to_jpg
  split
  · rename_i h
    simpa using h
  · split
    · exact endsJpg_new_jpg_path p
    · exact endsJpg_new_jpg_path p

/-- Every front path in the conditioned mapping ends in `jpg`. -/
lemma prepare_images_fronts_jpg (fs : String → Bool)
    (oracle : String → List IdentifyLine) :
    ∀ entries : List (Nat × String × String),
    ∀ e ∈ (prepare_images fs oracle entries).1, endsJpg e.2.2 = true := by
  intro entries
  induction entries with
  | nil => intro e he; cases he
  | cons a rest ih =>
      intro e he
      rcases List.mem_cons.mp he with h1 | h1
      · rw [h1]
        exact endsJpg_convert_fst fs a.2.2
      · exact ih e h1

/-- Every image `export_a3` places is the front of one of its entries. -/
lemma export_a3_images_from_fronts (entries : List (Nat × String × String)) :
    ∀ pl ∈ (export_a3 entries).placements, ∃ e ∈ entries, pl.image = e.2.2 := by
  intro pl hpl
  have hpl2 : pl ∈ a3Expected entries := by
    have h := a3_foldl_eq entries
    unfold export_a3 at hpl
    rw [h] at hpl
    exact hpl
  simp only [a3Expected, List.mem_map, List.mem_range] at hpl2
  obtain ⟨j, hj, hje⟩ := hpl2
  refine ⟨entries.getD j (0, "", ""), ?_, by rw [← hje]⟩
  rw [List.getD_eq_getElem _ _ hj]
  exact List.getElem_mem _

/-- Backs of the one-slot order used for C8. -/
def c8Backs : List Card := [⟨[0], "b0.png"⟩]

/-- Fronts of the one-slot order used for C8: a front that conditioning
would convert to jpg. -/
def c8Fronts : List Card := [⟨[0], "f0.png"⟩]

/-- C8 counterexample: in sequential mode `execute` performs no conditioning:
on a one-slot order with front `"f0.png"`, layout reads `"f0.png"` itself —
a path the conditioning pipeline would have replaced by `"f0.jpg"` — so the
Layout Engine consumes an artifact that skipped conditioning. -/
theorem seq_mode_skips_conditioning :
    execute false 60 demoFsEmpty (fun _ => []) c8Backs c8Fronts =
      Except.ok (ExportOutcome.seq
        [⟨1, [mkCardPage "b0.png", mkCardPage "f0.png"]⟩]) ∧
    endsJpg "f0.png" = false ∧
    (prepare_images demoFsEmpty (fun _ => []) [(0, "b0.png", "f0.png")]).1 =
      [(0, "b0.png", "f0.jpg")] := by
  refine ⟨by rfl, by decide, by rfl⟩

/-- C8 amended: within a single `execute` invocation, conditioning runs after
acquisition and before layout in grid-sheet (separate-faces) mode — every
image the grid layout places has passed `convert_to_jpg` and so ends in
`jpg` — while sequential mode passes the acquired slot mapping directly to
layout with no conditioning step. -/
theorem conditioning_only_in_grid_mode (k : Nat) (fs : String → Bool)
    (oracle : String → List IdentifyLine) (bc fc : List Card)
    (paths : List (Nat × String × String))
    (hdl : download_and_collect_images bc fc = Except.ok paths) :
    execute true k fs oracle bc fc =
      Except.ok (ExportOutcome.grid
        (export_a3 (prepare_images fs oracle paths).1)
        (prepare_images fs oracle paths).2) ∧
    (∀ pl ∈ (export_a3 (prepare_images fs oracle paths).1).placements,
      endsJpg pl.image = true) ∧
    (∀ docs : List SavedDoc, exportPdf k paths = Except.ok docs →
      execute false k fs oracle bc fc = Except.ok (ExportOutcome.seq docs)) := by
  refine ⟨?_, ?_, ?_⟩
  · unfold execute
    rw [hdl]
    rfl
  · intro pl hpl
    obtain ⟨e, he, hpe⟩ := export_a3_images_from_fronts _ pl hpl
    rw [hpe]
    exact prepare_images_fronts_jpg fs oracle paths e he
  · intro docs hdocs
    unfold execute
    rw [hdl]
    show (match exportPdf k paths with
      | Except.error err => Except.error err
      | Except.ok docs => Except.ok (ExportOutcome.seq docs)) = _
    rw [hdocs]

/-- Witness for C8's amended theorem: the one-slot order, in both modes. -/
theorem conditioning_only_in_grid_mode_witness :
    download_and_collect_images c8Backs c8Fronts =
      Except.ok [(0, "b0.png", "f0.png")] ∧
    (execute true 60 demoFsEmpty (fun _ => []) c8Backs c8Fronts =
      Except.ok (ExportOutcome.grid
        (export_a3
          (prepare_images demoFsEmpty (fun _ => []) [(0, "b0.png", "f0.png")]).1)
        (prepare_images demoFsEmpty (fun _ => []) [(0, "b0.png", "f0.png")]).2) ∧
    (∀ pl ∈ (export_a3
        (prepare_images demoFsEmpty (fun _ => [])
          [(0, "b0.png", "f0.png")]).1).placements,
      endsJpg pl.image = true) ∧
    (∀ docs : List SavedDoc,
      exportPdf 60 [(0, "b0.png", "f0.png")] = Except.ok docs →
      execute false 60 demoFsEmpty (fun _ => []) c8Backs c8Fronts =
        Except.ok (ExportOutcome.seq docs))) :=
  ⟨by rfl,
    conditioning_only_in_grid_mode 60 demoFsEmpty (fun _ => []) c8Backs
      c8Fronts [(0, "b0.png", "f0.png")] (by rfl)⟩

end PdfMaker
